import Mathlib

/-!
Shallow embedding of `scaleArt.py`: a single-file Flask application that
multiplies a number by √2 and persists named, grouped "dimension" records
in one JSON file.  The persisted file is modelled by `FileState`, the file
operations (`load_dimensions`, `save_dimensions`) and the dimension
operations (`add_dimension`, `delete_dimension`, `rename_dimension`,
`reorder_dimensions`, `update_dimension_group`, `get_groups`,
`reorder_groups`) are translated one to one from the Python source.
Python float values are modelled by `PyFloat`: the exact rational a finite
float denotes, a signed infinity, or `nan`; `json.dump`/`json.load`
round-trip all of these exactly (non-finite floats travel as the
`Infinity`/`-Infinity`/`NaN` tokens).  Binary quantisation of values is
not modelled: rationals are carried exactly rather than rounded to double
precision.
-/

/-- A CPython float value: the exact rational a finite float denotes, a
signed infinity, or `nan`.  Binary quantisation is outside the model
(rationals stand for the nearest double; overflow and underflow of
extreme finite magnitudes to `inf`/`0.0` are the identity here).  The
sign bit of a `nan` is dropped: nothing in this program observes it
(`json.dump` emits `NaN` and `%f` prints `nan` either way). -/
inductive PyFloat where
  | finite (q : ℚ)
  | inf (neg : Bool)
  | nan
deriving DecidableEq, Repr

/-- A JSON value as decoded by `json.load` in a value position.  `num`
carries the decoded numeric value: a standard JSON number, or one of the
non-standard `Infinity`/`-Infinity`/`NaN` tokens that Python's `json`
module both emits for non-finite floats and accepts back.  The numeric
value is carried exactly; the rounding of literals to double precision —
and the uncaught `OverflowError` on integer literals too large for a
double — belong to the unmodelled quantisation.  JSON arrays and objects
in a value position both make `float` raise `TypeError`, so they are
collapsed into the single constructor `nonScalar`. -/
inductive JVal where
  | num (v : PyFloat)
  | str (s : String)
  | jbool (b : Bool)
  | null
  | nonScalar
deriving DecidableEq, Repr

/-- Sum the decimal digits of `cs` into a natural number (assumes `cs` is
all digits). -/
def digitsToNat (cs : List Char) : ℕ :=
  cs.foldl (fun a c => a * 10 + (c.toNat - 48)) 0

/-- Code points of the non-ASCII characters CPython treats as whitespace
(`Py_UNICODE_ISSPACE`, from the Unicode character database): NEL, NBSP,
Ogham space mark, the U+2000 – U+200A spaces, line/paragraph separator,
narrow no-break space, medium mathematical space, ideographic space. -/
def pySpaceSup : List ℕ :=
  [133, 160, 5760, 8192, 8193, 8194, 8195, 8196, 8197, 8198, 8199, 8200,
   8201, 8202, 8232, 8233, 8239, 8287, 12288]

/-- CPython `str.isspace` / `Py_UNICODE_ISSPACE`: the ASCII controls
9 – 13 and 28 – 31, the space, and the non-ASCII whitespace set. -/
def pyIsSpace (c : Char) : Bool :=
  [9, 10, 11, 12, 13, 28, 29, 30, 31, 32].contains c.toNat ||
    pySpaceSup.contains c.toNat

/-- C-locale `isspace`, used by the ASCII float grammar when stripping a
candidate string (space, tab, LF, VT, FF, CR — notably not 28 – 31:
`float("\x1c5")` is a `ValueError` even though `"\x1c".isspace()`). -/
def cLocaleSpace (c : Char) : Bool :=
  [9, 10, 11, 12, 13, 32].contains c.toNat

/-- Start code points of the decimal-digit runs of the Unicode character
database (category `Nd`); each run is exactly ten consecutive code points
whose decimal values are 0 – 9 in order.  This is the table behind
CPython's `Py_UNICODE_TODECIMAL`, which `float(str)` uses to accept
digits of any script. -/
def ndRangeStarts : List ℕ :=
  [48, 1632, 1776, 1984, 2406, 2534, 2662, 2790, 2918, 3046, 3174, 3302,
   3430, 3558, 3664, 3792, 3872, 4160, 4240, 6112, 6160, 6470, 6608, 6784,
   6800, 6992, 7088, 7232, 7248, 42528, 43216, 43264, 43472, 43504, 43600,
   44016, 65296, 66720, 68912, 69734, 69872, 69942, 70096, 70384, 70736,
   70864, 71248, 71360, 71472, 71904, 72016, 72784, 73040, 73120, 92768,
   92864, 93008, 120782, 120792, 120802, 120812, 120822, 123200, 123632,
   125264, 130032]

/-- The decimal value of a Unicode decimal digit (category `Nd`), if any. -/
def pyDigitVal (c : Char) : Option ℕ :=
  (ndRangeStarts.find? (fun s => decide (s ≤ c.toNat ∧ c.toNat < s + 10))).map
    (fun s => c.toNat - s)

/-- The character transform CPython applies before parsing a float from a
string (`_PyUnicode_TransformDecimalAndSpaceToASCII`): an ASCII-only
string is returned untouched; otherwise code points below 127 are kept,
Unicode whitespace becomes a space, Unicode decimal digits become ASCII
digits, and anything else becomes `?` — a character the grammar can never
accept, so it forces the `ValueError` the real placeholder forces. -/
def pyTransform (cs : List Char) : List Char :=
  if cs.all (fun c => decide (c.toNat < 128)) then cs
  else
    cs.map (fun c =>
      if c.toNat < 127 then c
      else if pySpaceSup.contains c.toNat then ' '
      else
        match pyDigitVal c with
        | some d => Char.ofNat (48 + d)
        | none => Char.ofNat 63)

/-- Strip C-locale whitespace from both ends (the whitespace handling of
the ASCII float grammar). -/
def stripCSpaces (cs : List Char) : List Char :=
  ((cs.dropWhile cLocaleSpace).reverse.dropWhile cLocaleSpace).reverse

/-- Strip Python whitespace (`str.isspace`) from both ends: CPython's
`str.strip()`. -/
def pyStripChars (cs : List Char) : List Char :=
  ((cs.dropWhile pyIsSpace).reverse.dropWhile pyIsSpace).reverse

/-- Model of CPython `str.strip()`. -/
def pyStrip (s : String) : String := String.mk (pyStripChars s.data)

/-- Underscore removal of the float grammar (PEP 515): every underscore
must sit directly between two digits and is deleted; any other underscore
is a `ValueError`.  `prevDigit` records whether the previously kept
character was a digit. -/
def remUnderscores (prevDigit : Bool) : List Char → Option (List Char)
  | [] => some []
  | '_' :: rest =>
      if prevDigit then
        match rest with
        | c2 :: _ => if c2.isDigit then remUnderscores false rest else none
        | [] => none
      else none
  | c :: rest => (remUnderscores c.isDigit rest).map (fun l => c :: l)

/-- The finite-number grammar of `float(str)` after sign extraction:
`digits`, `digits.digits`, `digits.` or `.digits`, with an optional
decimal exponent; the whole remainder must be consumed. -/
def parseFinite (neg : Bool) (body : List Char) : Option PyFloat :=
  let intPart := body.takeWhile (fun c => c.isDigit)
  let rest := body.dropWhile (fun c => c.isDigit)
  let (fracPart, rest2) : List Char × List Char :=
    match rest with
    | '.' :: r => (r.takeWhile (fun c => c.isDigit), r.dropWhile (fun c => c.isDigit))
    | r => ([], r)
  if intPart.isEmpty && fracPart.isEmpty then none
  else
    let sign : ℚ := if neg then -1 else 1
    let mantissa : ℚ :=
      sign * ((digitsToNat intPart : ℚ) + (digitsToNat fracPart : ℚ) / 10 ^ fracPart.length)
    match rest2 with
    | [] => some (PyFloat.finite mantissa)
    | 'e' :: e | 'E' :: e =>
        let (eneg, edigits) : Bool × List Char :=
          match e with
          | '+' :: r => (false, r)
          | '-' :: r => (true, r)
          | r => (false, r)
        if edigits.isEmpty || !edigits.all (fun c => c.isDigit) then none
        else if eneg then some (PyFloat.finite (mantissa / 10 ^ digitsToNat edigits))
        else some (PyFloat.finite (mantissa * 10 ^ digitsToNat edigits))
    | _ => none

/-- Model of CPython `float(str)` (`PyFloat_FromString`): transform the
characters (identity for ASCII-only strings), strip C-locale whitespace
at both ends, remove PEP 515 underscores, take an optional sign, then
accept the case-insensitive literals `inf`, `infinity`, `nan` or a finite
decimal literal.  `none` is a `ValueError`. -/
def pyFloatStr (s : String) : Option PyFloat :=
  match remUnderscores false (stripCSpaces (pyTransform s.data)) with
  | none => none
  | some cs =>
      let (neg, body) : Bool × List Char :=
        match cs with
        | '+' :: r => (false, r)
        | '-' :: r => (true, r)
        | r => (false, r)
      let low := body.map Char.toLower
      if low = ['i', 'n', 'f'] ∨ low = ['i', 'n', 'f', 'i', 'n', 'i', 't', 'y'] then
        some (PyFloat.inf neg)
      else if low = ['n', 'a', 'n'] then some PyFloat.nan
      else parseFinite neg body

/-- Models CPython `float(x)` on a JSON-decoded value `x`: floats
(including the non-finite ones decoded from `Infinity`/`NaN` tokens) pass
through, strings are parsed, booleans become 0/1, `None` raises
`TypeError`, arrays/objects raise `TypeError`.  `none` means the call
raises `ValueError` or `TypeError` (the two exceptions the source
catches). -/
def pyFloatJVal : JVal → Option PyFloat
  | JVal.num v => some v
  | JVal.str s => pyFloatStr s
  | JVal.jbool b => some (PyFloat.finite (if b then 1 else 0))
  | JVal.null => none
  | JVal.nonScalar => none

/-- One in-memory dimension record, as normalised by `load_dimensions`:
`{'name': ..., 'value': float, 'group': str}`. -/
structure Dimension where
  name : String
  value : PyFloat
  group : String
deriving DecidableEq, Repr

instance : Inhabited Dimension := ⟨⟨"", PyFloat.finite 0, "Default"⟩⟩

/-- One element of the persisted JSON array format, as written by
`save_dimensions` (and possibly hand-edited to drop the `group` key, which
`load_dimensions` backfills).  Elements lacking a `value` key, or
non-object elements, make the source crash with an uncaught exception and
are outside the model. -/
structure StoredItem where
  name : String
  value : JVal
  group : Option String
deriving DecidableEq, Repr

/-- The persisted `saved_dimensions.json` file:
missing, unparseable JSON, the legacy mapping format `{name: value, ...}`,
or the current array-of-records format. -/
inductive FileState where
  | absent
  | malformed
  | legacy (entries : List (String × JVal))
  | array (items : List StoredItem)
deriving DecidableEq, Repr

/-- Model of `load_dimensions` (scaleArt.py lines 12-49): read the file if it
exists; on a JSON parse failure return `[]`; on the legacy dict format
build one record per key/value pair with `group='Default'`, coercing the
value with `float` and falling back to `0.0` on `ValueError`/`TypeError`;
on the array format coerce each `value` to float (`0.0` on failure) and
backfill a missing `group` with `'Default'`.  Pure: it never writes. -/
def load_dimensions : FileState → List Dimension
  | FileState.absent => []
  | FileState.malformed => []
  | FileState.legacy entries =>
      entries.map (fun e => ⟨e.1, (pyFloatJVal e.2).getD (PyFloat.finite 0), "Default"⟩)
  | FileState.array items =>
      items.map (fun it =>
        ⟨it.name, (pyFloatJVal it.value).getD (PyFloat.finite 0), it.group.getD "Default"⟩)

/-- Model of `save_dimensions` (lines 52-54): serialise the full record list to the
file, overwriting it entirely (`json.dump` writes finite floats as
numbers and non-finite ones as `Infinity`/`-Infinity`/`NaN` tokens, all
of which `json.load` reads back unchanged). -/
def save_dimensions (dimensions_list : List Dimension) : FileState :=
  FileState.array (dimensions_list.map (fun d => ⟨d.name, JVal.num d.value, some d.group⟩))

/-- CPython `round(x, 2)` on a float: a finite value rounds `x*100` to
the nearest integer, ties to even, then divides by 100 (re-quantisation
to binary is the unmodelled identity); `round` returns infinities and
`nan` unchanged. -/
def pyRound2 : PyFloat → PyFloat
  | PyFloat.finite x =>
      let y := x * 100
      let f := ⌊y⌋
      let r := y - f
      let n : ℤ :=
        if r < 1/2 then f
        else if 1/2 < r then f + 1
        else if f % 2 = 0 then f else f + 1
      PyFloat.finite ((n : ℚ) / 100)
  | PyFloat.inf b => PyFloat.inf b
  | PyFloat.nan => PyFloat.nan

/-- Model of `add_dimension` (lines 57-64): load, append
`{'name': name, 'value': round(float(value), 2), 'group': group}`, save.
`group` defaults to `'Default'`.  `value` is taken here already coerced to
a float (`float` on a float is the identity; the string-typed call site
is modelled in `save_handler`). -/
def add_dimension (fs : FileState) (name : String) (value : PyFloat)
    (group : String := "Default") : FileState :=
  save_dimensions (load_dimensions fs ++ [⟨name, pyRound2 value, group⟩])

/-- Model of `delete_dimension` (lines 67-71): load; if `0 <= index < len`, pop the
record at `index` and save; otherwise do nothing (no write). -/
def delete_dimension (fs : FileState) (index : ℤ) : FileState :=
  let dimensions := load_dimensions fs
  if 0 ≤ index ∧ index < (dimensions.length : ℤ) then
    save_dimensions (dimensions.eraseIdx index.toNat)
  else fs

/-- Replace the `name` field of the record at position `i` (in-bounds
helper for `rename_dimension`). -/
def setNameAt : List Dimension → ℕ → String → List Dimension
  | [], _, _ => []
  | d :: ds, 0, n => { d with name := n } :: ds
  | d :: ds, i + 1, n => d :: setNameAt ds i n

/-- Replace the `group` field of the record at position `i` (in-bounds
helper for `update_dimension_group`). -/
def setGroupAt : List Dimension → ℕ → String → List Dimension
  | [], _, _ => []
  | d :: ds, 0, g => { d with group := g } :: ds
  | d :: ds, i + 1, g => d :: setGroupAt ds i g

/-- Model of `rename_dimension` (lines 74-78): load; if `0 <= index < len`, set the
record's `name` and save; otherwise do nothing (no write). -/
def rename_dimension (fs : FileState) (index : ℤ) (new_name : String) : FileState :=
  let dimensions := load_dimensions fs
  if 0 ≤ index ∧ index < (dimensions.length : ℤ) then
    save_dimensions (setNameAt dimensions index.toNat new_name)
  else fs

/-- The validating loop of `reorder_dimensions` (lines 87-92): walk
`new_order`, appending `dimensions[idx]` for each in-bounds `idx`;
return `none` (Python: `return False`, before any write) at the first
out-of-bounds index. -/
def pickByIndices (dimensions : List Dimension) : List ℤ → Option (List Dimension)
  | [] => some []
  | idx :: rest =>
      if 0 ≤ idx ∧ idx < (dimensions.length : ℤ) then
        (pickByIndices dimensions rest).map (fun l => dimensions.getD idx.toNat default :: l)
      else none

/-- Model of `reorder_dimensions` (lines 81-95): load; fail if
`len(new_order) != len(dimensions)`; build the reordered list by indexing
the old list with each element of `new_order`, failing at any
out-of-bounds index; on success save and return `True`.  The pair is
(resulting file state, returned boolean). -/
def reorder_dimensions (fs : FileState) (new_order : List ℤ) : FileState × Bool :=
  let dimensions := load_dimensions fs
  if new_order.length ≠ dimensions.length then (fs, false)
  else
    match pickByIndices dimensions new_order with
    | none => (fs, false)
    | some reordered => (save_dimensions reordered, true)

/-- Model of `update_dimension_group` (lines 98-104): load; if `0 <= index < len`,
set the record's `group`, save and return `True`; otherwise return `False`
without writing. -/
def update_dimension_group (fs : FileState) (index : ℤ) (new_group : String) :
    FileState × Bool :=
  let dimensions := load_dimensions fs
  if 0 ≤ index ∧ index < (dimensions.length : ℤ) then
    (save_dimensions (setGroupAt dimensions index.toNat new_group), true)
  else (fs, false)

/-- Model of `get_groups` (lines 107-112): collect the `group` of every record into
a set and return `sorted(list(...))`.  The Python `set` is modelled by
`List.dedup`; `sorted` on strings (lexicographic by code point, equal
strings indistinguishable) is modelled by insertion sort under `≤`. -/
def get_groups (fs : FileState) : List String :=
  List.insertionSort (fun a b => a ≤ b) ((load_dimensions fs).map Dimension.group).dedup

/-- The scan of `reorder_groups` (lines 121-125): distinct group values in
first-occurrence order. -/
def currentGroupsAux (acc : List String) : List Dimension → List String
  | [] => acc
  | d :: ds => currentGroupsAux (if d.group ∈ acc then acc else acc ++ [d.group]) ds

/-- All distinct groups of `dimensions` in first-occurrence order. -/
def current_groups (dimensions : List Dimension) : List String :=
  currentGroupsAux [] dimensions

/-- Model of `reorder_groups` (lines 115-148): load; fail on an empty collection;
derive the distinct groups in first-occurrence order; fail if
`len(new_order)` differs from that list's length or any index is out of
range; otherwise save, for each group in the new order, all records whose
`group` equals it (in their current relative order), and return `True`. -/
def reorder_groups (fs : FileState) (new_order : List ℤ) : FileState × Bool :=
  let dimensions := load_dimensions fs
  if dimensions.isEmpty then (fs, false)
  else
    let cur := current_groups dimensions
    if new_order.length ≠ cur.length then (fs, false)
    else if !new_order.all (fun idx => decide (0 ≤ idx ∧ idx < (cur.length : ℤ))) then
      (fs, false)
    else
      let new_groups := new_order.map (fun idx => cur.getD idx.toNat "")
      let reordered := new_groups.flatMap (fun g => dimensions.filter (fun d => d.group = g))
      (save_dimensions reordered, true)

/-! ## Request handlers -/

/-- The group-slug rule used by the handlers (e.g. line 829):
`g.replace(' ', '-').replace('/', '').replace('.', '').lower()`.  All the
replaced patterns are single characters, so the chain is modelled
character-wise: map space to hyphen, drop slashes and dots, lowercase. -/
def slugify (g : String) : String :=
  String.mk
    (((g.data.map (fun c => if c = ' ' then '-' else c)).filter
        (fun c => !(c = '/' || c = '.'))).map Char.toLower)

/-- Building `redirect_url` (e.g. lines 836-838): `url_for('index')` is
`/`, followed by `?open=g1&open=g2...` when any open groups are carried. -/
def redirect_url (open_groups : List String) : String :=
  if open_groups.isEmpty then "/"
  else "/?" ++ String.intercalate "&" (open_groups.map (fun g => "open=" ++ g))

/-- The value of `result` handed to the template: a real number for a
finite input, or a non-finite float propagated by IEEE multiplication. -/
inductive PyRealExt where
  | finite (r : ℝ)
  | inf (neg : Bool)
  | nan

/-- Multiplication of a parsed float by `math.sqrt(2)` (line 802): finite
values multiply into ℝ; IEEE arithmetic gives same-signed infinity for an
infinite operand and `nan` for `nan` (√2 is positive and finite). -/
noncomputable def mulSqrt2 : PyFloat → PyRealExt
  | PyFloat.finite q => PyRealExt.finite ((q : ℝ) * Real.sqrt 2)
  | PyFloat.inf b => PyRealExt.inf b
  | PyFloat.nan => PyRealExt.nan

/-- The `index` handler's compute step (lines 799-804): on a POST carrying
a `number` field, `float` the field and multiply by `math.sqrt(2)`; a
`ValueError` is swallowed, leaving both `number` and `result` as `None`.
Returns the `(number, result)` pair handed to the template. -/
noncomputable def index_compute (postNumber : Option String) :
    Option PyFloat × Option PyRealExt :=
  match postNumber with
  | none => (none, none)
  | some s =>
      match pyFloatStr s with
      | some v => (some v, some (mulSqrt2 v))
      | none => (none, none)

/-- The value the template renders with `"%.2f"|format(result)` for a
finite result, expressed in hundredths: the integer nearest to `100 * r`
(ties cannot arise at the inputs considered, so half-even versus half-up
is immaterial). -/
noncomputable def fmt2 (r : ℝ) : ℤ := round (r * 100)

/-- The form fields read by the `save` handler (lines 814-840);
`none` models an absent field. -/
structure SaveForm where
  dimension_name : Option String
  value : Option String
  group : Option String
  new_group : Option String
  open_groups : List String
deriving DecidableEq, Repr

/-- Python truthiness of `request.form.get(...)`: `None` and the empty
string are falsy, every other string is truthy. -/
def truthy : Option String → Bool
  | none => false
  | some s => !s.isEmpty

/-- The group-resolution prelude of the `save` handler (lines 818-831):
`group = form.get('group', 'Default')`; if it is the sentinel `'new'`,
use the stripped `new_group` field when non-blank (also appending its slug
to the open-group list), else fall back to `'Default'`.  Returns the
resolved group and the final open-group list. -/
def save_resolve (form : SaveForm) : String × List String :=
  let group := form.group.getD "Default"
  if group = "new" then
    match form.new_group with
    | some ng =>
        if !(pyStrip ng).isEmpty then
          (pyStrip ng, form.open_groups ++ [slugify (pyStrip ng)])
        else ("Default", form.open_groups)
    | none => ("Default", form.open_groups)
  else (group, form.open_groups)

/-- The `save` handler (lines 814-840): resolve the group, and only when
both `dimension_name` and `value` are truthy call
`add_dimension(dimension_name, value, group)` (which applies
`float(value)`: an unparseable non-empty `value` raises an uncaught
`ValueError`, modelled as `none` = no redirect, HTTP 500); finally
redirect to the index view carrying the open groups.  The result is
`some (new file state, redirect URL)` on a normal return. -/
def save_handler (fs : FileState) (form : SaveForm) : Option (FileState × String) :=
  let resolved := save_resolve form
  if truthy form.dimension_name && truthy form.value then
    match pyFloatStr (form.value.getD "") with
    | none => none
    | some v =>
        some (add_dimension fs (form.dimension_name.getD "") v resolved.1,
              redirect_url resolved.2)
  else
    some (fs, redirect_url resolved.2)

/-- A concrete three-record file used by the witnesses. -/
def exampleFile : FileState :=
  save_dimensions
    [⟨"A", PyFloat.finite 1, "Default"⟩, ⟨"B", PyFloat.finite 2, "G1"⟩,
     ⟨"C", PyFloat.finite 3, "G2"⟩]

/-! ## Helper lemmas -/

/-- Loading the file written by `save_dimensions` recovers the record list
exactly (the JSON array round-trips each field). -/
lemma load_after_save (l : List Dimension) :
    load_dimensions (save_dimensions l) = l := by
  induction l with
  | nil => rfl
  | cons d ds ih => exact congrArg (List.cons _) ih

/-- When every index is in bounds, the validating loop of
`reorder_dimensions` returns the old list indexed by each element of the
order in turn. -/
lemma pickByIndices_eq_map (dims : List Dimension) (o : List ℤ)
    (h : ∀ i ∈ o, 0 ≤ i ∧ i < (dims.length : ℤ)) :
    pickByIndices dims o = some (o.map fun i => dims.getD i.toNat default) := by
  induction o with
  | nil => rfl
  | cons i rest ih =>
      have hi : 0 ≤ i ∧ i < (dims.length : ℤ) := h i (List.mem_cons_self i rest)
      have hrest := ih (fun j hj => h j (List.mem_cons_of_mem i hj))
      simp [pickByIndices, hi, hrest]

/-- An out-of-bounds index anywhere in the order makes the validating loop
of `reorder_dimensions` fail. -/
lemma pickByIndices_eq_none (dims : List Dimension) (o : List ℤ)
    (h : ∃ i ∈ o, ¬(0 ≤ i ∧ i < (dims.length : ℤ))) :
    pickByIndices dims o = none := by
  induction o with
  | nil => simp at h
  | cons i rest ih =>
      by_cases hi : 0 ≤ i ∧ i < (dims.length : ℤ)
      · have hrest : ∃ j ∈ rest, ¬(0 ≤ j ∧ j < (dims.length : ℤ)) := by
          rcases h with ⟨j, hj, hbad⟩
          rcases List.mem_cons.mp hj with rfl | hj'
          · exact absurd hi hbad
          · exact ⟨j, hj', hbad⟩
        simp [pickByIndices, hi, ih hrest]
      · simp [pickByIndices, hi]

/-- Evaluation of `float("5")`; rational arithmetic does not reduce
definitionally, so the parsed expression is exposed by `show` and the
arithmetic finished by `norm_num`. -/
lemma pyFloatStr_five : pyFloatStr "5" = some (PyFloat.finite 5) := by
  have h1 : digitsToNat [Char.ofNat 53] = 5 := rfl
  have h0 : digitsToNat ([] : List Char) = 0 := rfl
  show some (PyFloat.finite ((1 : ℚ) * ((digitsToNat [Char.ofNat 53] : ℚ) +
      (digitsToNat ([] : List Char) : ℚ) / 10 ^ ([] : List Char).length))) =
    some (PyFloat.finite 5)
  rw [h1, h0]
  norm_num

/-- Evaluation of `float("1_0")`: the PEP 515 underscore is removed and
the digits parse as 10. -/
lemma pyFloatStr_underscored_ten : pyFloatStr "1_0" = some (PyFloat.finite 10) := by
  have h1 : digitsToNat [Char.ofNat 49, Char.ofNat 48] = 10 := rfl
  have h0 : digitsToNat ([] : List Char) = 0 := rfl
  show some (PyFloat.finite ((1 : ℚ) *
      ((digitsToNat [Char.ofNat 49, Char.ofNat 48] : ℚ) +
        (digitsToNat ([] : List Char) : ℚ) / 10 ^ ([] : List Char).length))) =
    some (PyFloat.finite 10)
  rw [h1, h0]
  norm_num

/-! ## Claims -/

/-- C3: for every sequence of valid records (string name, float value,
non-null group), `save_dimensions` followed by `load_dimensions` yields a
sequence equal to the original, preserving order and values. -/
theorem save_then_load_roundtrip (l : List Dimension) :
    load_dimensions (save_dimensions l) = l :=
  load_after_save l

/-- C4: `add_dimension` appends exactly one record at the end of the
collection, with the value rounded to 2 decimal places and the given
group; all pre-existing records are unchanged and keep their positions,
and the group defaults to `"Default"` when not supplied. -/
theorem add_dimension_appends (fs : FileState) (name : String) (v : PyFloat) (g : String) :
    load_dimensions (add_dimension fs name v g) =
      load_dimensions fs ++ [⟨name, pyRound2 v, g⟩] ∧
    add_dimension fs name v = add_dimension fs name v "Default" :=
  ⟨load_after_save _, rfl⟩

/-- C1: when `new_order` has the collection's length and each element is
an index in `0..n-1`, `reorder_dimensions` saves the sequence whose i-th
element is the old sequence indexed by `new_order[i]` and returns `True`;
when the length differs or some element is out of range it returns
`False` and the persisted file is unchanged (no write). -/
theorem reorder_dimensions_spec (fs : FileState) (new_order : List ℤ) :
    (new_order.length = (load_dimensions fs).length ∧
        (∀ i ∈ new_order, 0 ≤ i ∧ i < ((load_dimensions fs).length : ℤ)) →
      reorder_dimensions fs new_order =
        (save_dimensions
          (new_order.map fun i => (load_dimensions fs).getD i.toNat default), true) ∧
      load_dimensions (reorder_dimensions fs new_order).1 =
        new_order.map fun i => (load_dimensions fs).getD i.toNat default) ∧
    (¬(new_order.length = (load_dimensions fs).length ∧
        (∀ i ∈ new_order, 0 ≤ i ∧ i < ((load_dimensions fs).length : ℤ))) →
      reorder_dimensions fs new_order = (fs, false)) := by
  constructor
  · rintro ⟨hlen, hbound⟩
    have hpick := pickByIndices_eq_map (load_dimensions fs) new_order hbound
    have hres : reorder_dimensions fs new_order =
        (save_dimensions
          (new_order.map fun i => (load_dimensions fs).getD i.toNat default), true) := by
      simp [reorder_dimensions, hlen, hpick]
    exact ⟨hres, by rw [hres]; exact load_after_save _⟩
  · intro h
    by_cases hlen : new_order.length = (load_dimensions fs).length
    · have hex : ∃ i ∈ new_order, ¬(0 ≤ i ∧ i < ((load_dimensions fs).length : ℤ)) := by
        rcases not_and_or.mp h with h1 | h2
        · exact absurd hlen h1
        · push_neg at h2
          rcases h2 with ⟨i, hi, hbad⟩
          exact ⟨i, hi, fun hc => absurd hc.2 (not_lt.mpr (hbad hc.1))⟩
      simp [reorder_dimensions, hlen, pickByIndices_eq_none _ _ hex]
    · simp [reorder_dimensions, hlen]

/-- Witness for C1: reordering the three-record example file by
`[2, 0, 1]` saves `[old[2], old[0], old[1]]` and reports success. -/
theorem reorder_dimensions_spec_witness :
    reorder_dimensions exampleFile [2, 0, 1] =
      (save_dimensions
        [⟨"C", PyFloat.finite 3, "G2"⟩, ⟨"A", PyFloat.finite 1, "Default"⟩,
         ⟨"B", PyFloat.finite 2, "G1"⟩], true) := by
  have h := ((reorder_dimensions_spec exampleFile [2, 0, 1]).1 (by decide)).1
  exact h.trans (by decide)

/-- C2: on a non-empty collection whose distinct groups in
first-occurrence order are `G`, a `new_order` of the same length with all
indices in range makes `reorder_groups` save, for each group of the new
order in turn, all records currently belonging to that group in their
current relative order, and return `True`; an empty collection, a length
mismatch or an out-of-range index makes it return `False` with the
persisted file unchanged. -/
theorem reorder_groups_spec (fs : FileState) (new_order : List ℤ) :
    (load_dimensions fs ≠ [] ∧
        new_order.length = (current_groups (load_dimensions fs)).length ∧
        (∀ i ∈ new_order,
          0 ≤ i ∧ i < ((current_groups (load_dimensions fs)).length : ℤ)) →
      (reorder_groups fs new_order).2 = true ∧
      load_dimensions (reorder_groups fs new_order).1 =
        (new_order.map fun i =>
            (current_groups (load_dimensions fs)).getD i.toNat "").flatMap
          (fun g => (load_dimensions fs).filter (fun d => d.group = g))) ∧
    (load_dimensions fs = [] ∨
        new_order.length ≠ (current_groups (load_dimensions fs)).length ∨
        (∃ i ∈ new_order,
          ¬(0 ≤ i ∧ i < ((current_groups (load_dimensions fs)).length : ℤ))) →
      reorder_groups fs new_order = (fs, false)) := by
  constructor
  · rintro ⟨hne, hlen, hbound⟩
    have hempty : (load_dimensions fs).isEmpty = false := by
      simpa [List.isEmpty_iff] using hne
    have hres : reorder_groups fs new_order =
        (save_dimensions
          ((new_order.map fun i =>
              (current_groups (load_dimensions fs)).getD i.toNat "").flatMap
            (fun g => (load_dimensions fs).filter (fun d => d.group = g))), true) := by
      simp [reorder_groups, hempty, hlen]
      exact hbound
    exact ⟨by rw [hres], by rw [hres]; exact load_after_save _⟩
  · intro h
    by_cases hempty : (load_dimensions fs).isEmpty
    · simp [reorder_groups, hempty]
    · have hne : ¬load_dimensions fs = [] := by
        simpa [List.isEmpty_iff] using hempty
      rcases h with h | h | h
      · exact absurd h hne
      · simp [reorder_groups, hempty, h]
      · by_cases hlen :
          new_order.length = (current_groups (load_dimensions fs)).length
        · simp [reorder_groups, hempty, hlen]
          rcases h with ⟨i, hi, hbad⟩
          exact ⟨i, hi, fun h0 => le_of_not_lt (fun hlt => hbad ⟨h0, hlt⟩)⟩
        · simp [reorder_groups, hempty, hlen]

/-- Witness for C2: the example file's groups in first-occurrence order
are `["Default", "G1", "G2"]`; the new order `[1, 0, 2]` puts all `G1`
records before all `Default` records before all `G2` records and reports
success. -/
theorem reorder_groups_spec_witness :
    (reorder_groups exampleFile [1, 0, 2]).2 = true ∧
    load_dimensions (reorder_groups exampleFile [1, 0, 2]).1 =
      [⟨"B", PyFloat.finite 2, "G1"⟩, ⟨"A", PyFloat.finite 1, "Default"⟩,
       ⟨"C", PyFloat.finite 3, "G2"⟩] := by
  have h := (reorder_groups_spec exampleFile [1, 0, 2]).1 (by decide)
  exact ⟨h.1, h.2.trans (by decide)⟩

/-- C5: `load_dimensions` turns a legacy mapping file into one record per
key/value pair with the value coerced by `float` (`0.0` on coercion
failure) and group `"Default"`; in particular a file holding
`{"Head": 20}` loads as the single record
`{name: "Head", value: 20.0, group: "Default"}`.  On the array format the
`value` field is coerced to float (`0.0` on failure) and a missing `group`
is backfilled with `"Default"`.  Concrete coercions: the non-numeric
string `"abc"` fails and loads as `0.0`, while the Python-numeric strings
`"1_0"` (PEP 515 underscore) and `"inf"` coerce to `10.0` and infinity.
(`load_dimensions` is a pure function of the file state: it never
writes.) -/
theorem load_normalizes_formats :
    (∀ entries, load_dimensions (FileState.legacy entries) =
      entries.map (fun e =>
        ⟨e.1, (pyFloatJVal e.2).getD (PyFloat.finite 0), "Default"⟩)) ∧
    load_dimensions (FileState.legacy [("Head", JVal.num (PyFloat.finite 20))]) =
      [⟨"Head", PyFloat.finite 20, "Default"⟩] ∧
    (∀ items, load_dimensions (FileState.array items) =
      items.map (fun it =>
        ⟨it.name, (pyFloatJVal it.value).getD (PyFloat.finite 0),
          it.group.getD "Default"⟩)) ∧
    load_dimensions (FileState.array [⟨"X", JVal.str "abc", none⟩]) =
      [⟨"X", PyFloat.finite 0, "Default"⟩] ∧
    load_dimensions (FileState.array [⟨"Y", JVal.str "1_0", none⟩]) =
      [⟨"Y", PyFloat.finite 10, "Default"⟩] ∧
    load_dimensions (FileState.array [⟨"Z", JVal.str "inf", none⟩]) =
      [⟨"Z", PyFloat.inf false, "Default"⟩] := by
  refine ⟨fun _ => rfl, by decide, fun _ => rfl, by decide, ?_, by decide⟩
  simp [load_dimensions, pyFloatJVal, pyFloatStr_underscored_ten]

/-- C6: an index outside `0..n-1` makes `delete_dimension` and
`rename_dimension` silent no-ops (the file state is returned unchanged, so
no write happens and no error surfaces), and makes
`update_dimension_group` return `False` with the file unchanged. -/
theorem out_of_bounds_index_noop (fs : FileState) (i : ℤ) (nm g : String)
    (h : ¬(0 ≤ i ∧ i < ((load_dimensions fs).length : ℤ))) :
    delete_dimension fs i = fs ∧
    rename_dimension fs i nm = fs ∧
    update_dimension_group fs i g = (fs, false) := by
  refine ⟨?_, ?_, ?_⟩
  · simp only [delete_dimension]
    rw [if_neg h]
  · simp only [rename_dimension]
    rw [if_neg h]
  · simp only [update_dimension_group]
    rw [if_neg h]

/-- Witness for C6: index 5 is out of bounds for the three-record example
file; delete and rename leave it unchanged and update-group reports
failure. -/
theorem out_of_bounds_index_noop_witness :
    delete_dimension exampleFile 5 = exampleFile ∧
    rename_dimension exampleFile 5 "N" = exampleFile ∧
    update_dimension_group exampleFile 5 "G" = (exampleFile, false) :=
  out_of_bounds_index_noop exampleFile 5 "N" "G" (by decide)

/-- C7: a file whose contents are not parseable as JSON loads as the
empty collection (`load_dimensions` is pure, so the file itself is left
untouched), and the file is only rewritten by the next mutating
operation — for instance a subsequent `add_dimension` overwrites it with
exactly the one new record. -/
theorem malformed_json_loads_empty :
    load_dimensions FileState.malformed = [] ∧
    ∀ (n : String) (v : PyFloat) (g : String),
      add_dimension FileState.malformed n v g =
        save_dimensions [⟨n, pyRound2 v, g⟩] :=
  ⟨rfl, fun _ _ _ => rfl⟩

/-- C9: `get_groups` returns the distinct group values of the collection
sorted alphabetically (lexicographic code-point order, not
first-occurrence order), each distinct value exactly once. -/
theorem get_groups_sorted_distinct (fs : FileState) :
    List.Sorted (fun a b : String => a ≤ b) (get_groups fs) ∧
    (get_groups fs).Nodup ∧
    ∀ g, g ∈ get_groups fs ↔ ∃ d ∈ load_dimensions fs, d.group = g := by
  refine ⟨List.sorted_insertionSort _ _, ?_, ?_⟩
  · exact ((List.perm_insertionSort _ _).nodup_iff).mpr (List.nodup_dedup _)
  · intro g
    unfold get_groups
    rw [(List.perm_insertionSort _ _).mem_iff, List.mem_dedup, List.mem_map]

/-- C8: the compute handler pairs every input `float()` accepts with that
number times `sqrt 2` (finite numbers multiply into ℝ; the second
conjunct spells this out); every input `float()` rejects — `"abc"` shown
concretely — yields no number and no result: the `ValueError` is
swallowed and the empty form re-renders with no error; the input `5`
yields a result that prints as `7.07` under two-decimal formatting. -/
theorem index_compute_spec :
    (∀ (s : String) (v : PyFloat), pyFloatStr s = some v →
        index_compute (some s) = (some v, some (mulSqrt2 v))) ∧
    (∀ q : ℚ, mulSqrt2 (PyFloat.finite q) = PyRealExt.finite ((q : ℝ) * Real.sqrt 2)) ∧
    (∀ s : String, pyFloatStr s = none → index_compute (some s) = (none, none)) ∧
    index_compute (some "abc") = (none, none) ∧
    ∃ r : ℝ, index_compute (some "5") =
        (some (PyFloat.finite 5), some (PyRealExt.finite r)) ∧
      fmt2 r = 707 := by
  have habc : pyFloatStr "abc" = none := by decide
  refine ⟨?_, fun q => rfl, ?_, ?_, ?_⟩
  · intro s v h
    simp [index_compute, h]
  · intro s h
    simp [index_compute, h]
  · simp [index_compute, habc]
  · refine ⟨((5 : ℚ) : ℝ) * Real.sqrt 2, ?_, ?_⟩
    · simp [index_compute, pyFloatStr_five, mulSqrt2]
    · have h1 : Real.sqrt 2 < 1.4143 := (Real.sqrt_lt' (by norm_num)).mpr (by norm_num)
      have h2 : (1.414 : ℝ) < Real.sqrt 2 := (Real.lt_sqrt (by norm_num)).mpr (by norm_num)
      unfold fmt2
      rw [round_eq]
      refine Int.floor_eq_iff.mpr ⟨?_, ?_⟩ <;> push_cast <;> nlinarith

/-- Witness for C8: the numeric input `"5"` parses and the handler
returns `5` paired with the product `5 * sqrt 2`. -/
theorem index_compute_spec_witness :
    index_compute (some "5") =
      (some (PyFloat.finite 5), some (mulSqrt2 (PyFloat.finite 5))) :=
  index_compute_spec.1 "5" (PyFloat.finite 5) pyFloatStr_five

/-- C10: when the dimension name or the value field is missing or empty,
the save handler adds no record — the persisted file is returned
unchanged — and still redirects to the index view (a URL that is `/`,
possibly with `open=` query parameters). -/
theorem save_handler_blank_noop (fs : FileState) (form : SaveForm)
    (h : truthy form.dimension_name = false ∨ truthy form.value = false) :
    save_handler fs form = some (fs, redirect_url (save_resolve form).2) ∧
    (redirect_url (save_resolve form).2 = "/" ∨
      ∃ t, redirect_url (save_resolve form).2 = "/?" ++ t) := by
  have hcond : (truthy form.dimension_name && truthy form.value) = false := by
    rcases h with h | h <;> simp [h]
  constructor
  · simp [save_handler, hcond]
  · by_cases hg : (save_resolve form).2.isEmpty = true
    · exact Or.inl (by simp [redirect_url, hg])
    · exact Or.inr
        ⟨String.intercalate "&" ((save_resolve form).2.map (fun g => "open=" ++ g)),
          by simp [redirect_url, hg]⟩

/-- Witness for C10: a request with no dimension name (value present)
leaves the example file unchanged and redirects to `/`. -/
theorem save_handler_blank_noop_witness :
    save_handler exampleFile ⟨none, some "3", none, none, []⟩ =
      some (exampleFile, "/") := by
  have h := (save_handler_blank_noop exampleFile ⟨none, some "3", none, none, []⟩
      (Or.inl rfl)).1
  exact h.trans (by decide)
